import Mathlib

/-!
Verification development for the myazan broadcast-session coordination layer.

Program strings are embedded as `List Char` (the character sequence of a
JavaScript string); `String.startsWith` corresponds to `List.isPrefixOf`,
`String.prototype.substring(n)` to `List.drop n`, and `Array.prototype.includes`
/ `Set.prototype.has` to `List.contains`.
-/

namespace MyAzan

/-- Character-sequence embedding of a program string. -/
abbrev Str := List Char

/-! ## ChannelManager (src/services/channelManager.ts)

`private static readonly CHANNEL_PREFIX = 'myazan_'` and
`private static readonly SESSION_TIMEOUT_MINUTES = 60`. -/

def CHANNEL_PREFIX_STR : Str := "myazan_".data

def SESSION_TIMEOUT_MINUTES : Int := 60

/-- `generateChannelName(senderId)` returns `` `${this.CHANNEL_PREFIX}${senderId}` ``. -/
def generateChannelName (senderId : Str) : Str :=
  CHANNEL_PREFIX_STR ++ senderId

/-- `extractSenderId(channelName)`: if `channelName.startsWith(CHANNEL_PREFIX)`
return `channelName.substring(CHANNEL_PREFIX.length)`, else `null`. -/
def extractSenderId (channelName : Str) : Option Str :=
  if CHANNEL_PREFIX_STR.isPrefixOf channelName then
    some (channelName.drop CHANNEL_PREFIX_STR.length)
  else
    none

lemma isPrefixOf_append_self (p s : Str) : p.isPrefixOf (p ++ s) = true := by
  induction p with
  | nil => simp [List.isPrefixOf]
  | cons c cs ih => simp [List.isPrefixOf, ih]

/-! ## Session store model

The `announcements` collection is modelled as a list of documents carrying
exactly the fields `ChannelManager.startSession` writes.  `serverTimestamp()`
becomes an explicit `now` parameter (milliseconds); `Date` values are `Int`
milliseconds.  A fallible `getDocs` query is an `Except` parametrised by
whether the store read fails. -/

structure AnnouncementData where
  sessionId : Str
  senderId : Str
  channelName : Str
  agoraToken : Str
  startedAt : Option Int
  isLive : Bool
  expiresAt : Option Int
deriving DecidableEq

abbrev Store := List AnnouncementData

/-- The predicate of the query
`where('channelName','==',channelName), where('isLive','==',true)`. -/
def liveOnChannel (channelName : Str) (d : AnnouncementData) : Bool :=
  d.channelName == channelName && d.isLive

/-- `getDocs` on that query: fails, or returns the matching documents. -/
def getDocsLiveOnChannel (st : Store) (channelName : Str) (queryFails : Bool) :
    Except Unit (List AnnouncementData) :=
  if queryFails then .error () else .ok (st.filter (liveOnChannel channelName))

/-- `checkActiveSession(channelName)`: `!snapshot.empty`, and `false` when the
`getDocs` call throws (the `catch` branch). -/
def checkActiveSession (st : Store) (queryFails : Bool) (channelName : Str) : Bool :=
  match getDocsLiveOnChannel st channelName queryFails with
  | .error _ => false
  | .ok docs => !docs.isEmpty

/-- Result of `startSession`: the returned boolean, the store afterwards, and
the number of `setDoc` writes performed. -/
structure StartSessionResult where
  ok : Bool
  store : Store
  writeCount : Nat
deriving DecidableEq

/-- `startSession(sessionId, senderId, channelName, agoraToken, expiresAt?)`:
re-checks `checkActiveSession`; on collision returns `false` without writing,
otherwise performs the single `setDoc` with `isLive: true`,
`startedAt: serverTimestamp()`, `expiresAt: expiresAt || null`. -/
def startSession (st : Store) (queryFails : Bool)
    (sessionId senderId channelName agoraToken : Str)
    (now : Int) (expiresAt : Option Int) : StartSessionResult :=
  if checkActiveSession st queryFails channelName then
    ⟨false, st, 0⟩
  else
    ⟨true,
     st ++ [⟨sessionId, senderId, channelName, agoraToken, some now, true, expiresAt⟩],
     1⟩

/-- The staleness test of `cleanupStaleSessions`: the document came from the
`isLive == true` query snapshot, and `data.startedAt && data.startedAt.toDate()
< cutoffTime` with `cutoffTime = now - SESSION_TIMEOUT_MINUTES * 60 * 1000`.
A missing (`null`/absent, i.e. falsy) `startedAt` fails the test. -/
def isStale (now : Int) (d : AnnouncementData) : Bool :=
  d.isLive &&
    (match d.startedAt with
     | some t => decide (t < now - SESSION_TIMEOUT_MINUTES * 60 * 1000)
     | none => false)

/-- Per-document effect of the reclamation batch: `batch.update(ref,
{ isLive: false })` on every stale document, all others untouched. -/
def reclaimDoc (now : Int) (d : AnnouncementData) : AnnouncementData :=
  if isStale now d then { d with isLive := false } else d

/-- `cleanupStaleSessions(): Promise<void>` — net effect of the committed batch
on the store, paired with the (void) return value of the function. -/
def cleanupStaleSessions (st : Store) (now : Int) : Store × Unit :=
  (st.map (reclaimDoc now), ())

/-! ## FirebaseListenerService (src/services/firebaseListener.ts)

The snapshot handler of `startListening` is embedded as a step function on the
in-memory `activeChannels` set (a list of channel names), emitting the callback
invocations it performs.  A JS `forEach` body `return` skips the remainder of
the per-change handling, which is why the authorization skip guards both
blocks for `added`/`modified` changes. -/

inductive Role
  | sender
  | receiver
deriving DecidableEq

inductive ChangeType
  | added
  | modified
  | removed
deriving DecidableEq

/-- One entry of `snapshot.docChanges()`: its `type`, `doc.id` and
`doc.data()`. -/
structure DocChange where
  type : ChangeType
  docId : Str
  data : AnnouncementData
deriving DecidableEq

/-- A callback invocation performed by the snapshot handler. -/
inductive CallbackEvent
  | onNewAnnouncement (data : AnnouncementData)
  | onAnnouncementEnded (docId : Str) (channelName : Str)
deriving DecidableEq

/-- The authorization test of lines 90–94:
`userRole === 'receiver' && receivesFromSenderIds &&
!receivesFromSenderIds.includes(data.senderId)`. -/
def skipsChange (userRole : Role) (receivesFromSenderIds : Option (List Str))
    (data : AnnouncementData) : Bool :=
  userRole == .receiver &&
    (match receivesFromSenderIds with
     | some ids => !ids.contains data.senderId
     | none => false)

/-- The body of `snapshot.docChanges().forEach` for one change: returns the
updated `activeChannels` set and the callbacks fired, in order. -/
def processChange (userRole : Role) (receivesFromSenderIds : Option (List Str))
    (activeChannels : List Str) (change : DocChange) :
    List Str × List CallbackEvent :=
  let data := change.data
  if (change.type == .added || change.type == .modified) &&
      skipsChange userRole receivesFromSenderIds data then
    (activeChannels, [])
  else
    let step1 : List Str × List CallbackEvent :=
      if (change.type == .added || change.type == .modified) &&
          data.isLive && !activeChannels.contains data.channelName then
        (data.channelName :: activeChannels, [.onNewAnnouncement data])
      else
        (activeChannels, [])
    if (change.type == .removed || (change.type == .modified && !data.isLive)) &&
        step1.1.contains data.channelName then
      (step1.1.filter (fun c => c != data.channelName),
       step1.2 ++ [.onAnnouncementEnded change.docId data.channelName])
    else
      step1

/-- A sequence of delivered changes, folded through the handler. -/
def processChanges (userRole : Role) (receivesFromSenderIds : Option (List Str))
    (activeChannels : List Str) (changes : List DocChange) :
    List Str × List CallbackEvent :=
  changes.foldl
    (fun acc change =>
      let r := processChange userRole receivesFromSenderIds acc.1 change
      (r.1, acc.2 ++ r.2))
    (activeChannels, [])

end MyAzan

namespace MyAzan

/-! ## Claims about the ChannelManager -/

/-- C5: `generateChannelName` is deterministic and injective, and
`extractSenderId` inverts it: `extractSenderId(generateChannelName(s)) == s`. -/
theorem generateChannelName_deterministic_injective_roundtrip :
    (∀ s : Str, generateChannelName s = generateChannelName s) ∧
    (∀ a b : Str, generateChannelName a = generateChannelName b → a = b) ∧
    (∀ s : Str, extractSenderId (generateChannelName s) = some s) := by
  refine ⟨fun s => rfl, fun a b h => ?_, fun s => ?_⟩
  · exact List.append_cancel_left h
  · unfold extractSenderId generateChannelName
    rw [isPrefixOf_append_self]
    simp

/-- Witness for C5 at concrete sender IDs. -/
theorem generateChannelName_roundtrip_witness :
    extractSenderId (generateChannelName "sender123".data) = some "sender123".data ∧
    "a".data = "a".data :=
  ⟨generateChannelName_deterministic_injective_roundtrip.2.2 "sender123".data,
   generateChannelName_deterministic_injective_roundtrip.2.1 "a".data "a".data rfl⟩

/-- C8: on any channel name that does not start with the fixed prefix
`"myazan_"`, `extractSenderId` returns `none`; in particular on
`"invalid_channel"`. -/
theorem extractSenderId_none_without_marker :
    (∀ c : Str, CHANNEL_PREFIX_STR.isPrefixOf c = false → extractSenderId c = none) ∧
    extractSenderId "invalid_channel".data = none := by
  constructor
  · intro c h
    unfold extractSenderId
    rw [h]
    simp
  · decide

/-- Witness for C8 at the concrete input `"invalid_channel"`. -/
theorem extractSenderId_none_without_marker_witness :
    extractSenderId "invalid_channel".data = none :=
  extractSenderId_none_without_marker.1 "invalid_channel".data (by decide)

/-- C4: on a healthy store `checkActiveSession` is true exactly when some
document has the given channel name and `isLive == true`; when the store query
fails it returns `false` rather than an error. -/
theorem checkActiveSession_characterisation :
    (∀ (st : Store) (c : Str),
      checkActiveSession st false c = true ↔
        ∃ d ∈ st, d.channelName = c ∧ d.isLive = true) ∧
    (∀ (st : Store) (c : Str), checkActiveSession st true c = false) := by
  constructor
  · intro st c
    unfold checkActiveSession getDocsLiveOnChannel
    simp only [if_neg Bool.false_ne_true]
    simp [List.isEmpty_iff, List.filter_eq_nil_iff, liveOnChannel]
  · intro st c
    rfl

/-- C2: `startSession` re-checks `checkActiveSession`; on collision it returns
`false` with the store untouched and zero writes, otherwise it returns `true`
having appended exactly one document, with `isLive = true`. -/
theorem startSession_collision_guard
    (st : Store) (sid sender chn tok : Str) (now : Int) (exp : Option Int) :
    (checkActiveSession st false chn = true →
      startSession st false sid sender chn tok now exp = ⟨false, st, 0⟩) ∧
    (checkActiveSession st false chn = false →
      startSession st false sid sender chn tok now exp =
        ⟨true, st ++ [⟨sid, sender, chn, tok, some now, true, exp⟩], 1⟩ ∧
      (⟨sid, sender, chn, tok, some now, true, exp⟩ : AnnouncementData).isLive = true) := by
  constructor
  · intro h
    unfold startSession
    rw [h]
    simp
  · intro h
    unfold startSession
    rw [h]
    simp

/-- Witness for C2: an empty store accepts the first session; a store already
holding a live session on the channel rejects the second attempt untouched. -/
theorem startSession_collision_guard_witness :
    (startSession [] false "s1".data "sender123".data "myazan_sender123".data
        "tok".data 5 none =
      ⟨true, [⟨"s1".data, "sender123".data, "myazan_sender123".data, "tok".data,
              some 5, true, none⟩], 1⟩) ∧
    (startSession [⟨"s1".data, "sender123".data, "myazan_sender123".data, "tok".data,
        some 5, true, none⟩] false "s2".data "sender123".data "myazan_sender123".data
        "tok".data 6 none =
      ⟨false, [⟨"s1".data, "sender123".data, "myazan_sender123".data, "tok".data,
               some 5, true, none⟩], 0⟩) :=
  ⟨((startSession_collision_guard [] "s1".data "sender123".data "myazan_sender123".data
      "tok".data 5 none).2 (by decide)).1,
   (startSession_collision_guard
      [⟨"s1".data, "sender123".data, "myazan_sender123".data, "tok".data, some 5, true, none⟩]
      "s2".data "sender123".data "myazan_sender123".data "tok".data 6 none).1 (by decide)⟩

/-- C3 counterexample: `cleanupStaleSessions` does not return a count of the
reclaimed sessions.  Two runs that reclaim different numbers of sessions (one
versus zero) return the very same (void) value, so the return value cannot be
the reclamation count. -/
theorem cleanupStaleSessions_no_count_returned :
    (cleanupStaleSessions
        [⟨"s1".data, "a".data, "myazan_a".data, "t".data, some 0, true, none⟩]
        7200000).1 =
      [⟨"s1".data, "a".data, "myazan_a".data, "t".data, some 0, false, none⟩] ∧
    (cleanupStaleSessions [] 7200000).1 = [] ∧
    (cleanupStaleSessions
        [⟨"s1".data, "a".data, "myazan_a".data, "t".data, some 0, true, none⟩]
        7200000).2 =
      (cleanupStaleSessions [] 7200000).2 := by
  refine ⟨by decide, rfl, rfl⟩

/-- C3 amended: `cleanupStaleSessions` flips `isLive` to `false` exactly on the
live documents whose `startedAt` is present and older than `now` minus the
60-minute threshold, leaves every other document unchanged, and returns
nothing (void), not a count. -/
theorem cleanupStaleSessions_flips_exactly_stale
    (st : Store) (now : Int) (i : Nat) (d : AnnouncementData)
    (h : st[i]? = some d) :
    ((cleanupStaleSessions st now).1[i]? =
      some (if isStale now d then { d with isLive := false } else d)) ∧
    (isStale now d = true ↔
      d.isLive = true ∧ ∃ t, d.startedAt = some t ∧
        t < now - SESSION_TIMEOUT_MINUTES * 60 * 1000) ∧
    (cleanupStaleSessions st now).2 = () := by
  refine ⟨?_, ?_, rfl⟩
  · unfold cleanupStaleSessions reclaimDoc
    simp [List.getElem?_map, h]
  · unfold isStale
    cases hs : d.startedAt with
    | none => simp [hs]
    | some t => simp [hs]

/-- Witness for the amended C3: a 61-minute-old live session is flipped dead,
and `isStale` holds for it. -/
theorem cleanupStaleSessions_flips_exactly_stale_witness :
    ((cleanupStaleSessions
        [⟨"s1".data, "a".data, "myazan_a".data, "t".data, some 0, true, none⟩]
        3660000).1.get? 0 =
      some (if isStale 3660000
              ⟨"s1".data, "a".data, "myazan_a".data, "t".data, some 0, true, none⟩
            then { (⟨"s1".data, "a".data, "myazan_a".data, "t".data, some 0, true,
                    none⟩ : AnnouncementData) with isLive := false }
            else ⟨"s1".data, "a".data, "myazan_a".data, "t".data, some 0, true, none⟩)) ∧
    isStale 3660000
      ⟨"s1".data, "a".data, "myazan_a".data, "t".data, some 0, true, none⟩ = true :=
  ⟨(cleanupStaleSessions_flips_exactly_stale
      [⟨"s1".data, "a".data, "myazan_a".data, "t".data, some 0, true, none⟩]
      3660000 0 _ rfl).1,
   by decide⟩

/-- C9: a live document whose `startedAt` is missing is never reclaimed by the
sweep, however old: `cleanupStaleSessions` leaves the document, and hence its
`isLive` flag, exactly as it was. -/
theorem cleanupStaleSessions_skips_missing_startedAt
    (st : Store) (now : Int) (i : Nat) (d : AnnouncementData)
    (h : st[i]? = some d) (hst : d.startedAt = none) :
    reclaimDoc now d = d ∧
    (cleanupStaleSessions st now).1[i]? = some d ∧
    (d.isLive = true → ∃ d', (cleanupStaleSessions st now).1[i]? = some d' ∧
      d'.isLive = true) := by
  have hr : reclaimDoc now d = d := by
    unfold reclaimDoc isStale
    simp [hst]
  refine ⟨hr, ?_, ?_⟩
  · unfold cleanupStaleSessions
    simp [List.getElem?_map, h, hr]
  · intro hl
    refine ⟨d, ?_, hl⟩
    unfold cleanupStaleSessions
    simp [List.getElem?_map, h, hr]

/-! ## Claims about the Change-Feed Multiplexer -/

lemma contains_eq_false_iff (l : List Str) (a : Str) :
    l.contains a = false ↔ a ∉ l := by
  simp

lemma filter_ne_of_not_mem (l : List Str) (a : Str) (h : l.contains a = false) :
    l.filter (fun c => c != a) = l := by
  rw [List.filter_eq_self]
  intro c hc
  rcases (contains_eq_false_iff l a).mp h with hna
  simp only [bne_iff_ne, ne_eq, decide_eq_true_eq]
  exact fun heq => hna (heq ▸ hc)

lemma processChange_skip (r : Role) (rf : Option (List Str))
    (ac : List Str) (ty : ChangeType) (i : Str) (d : AnnouncementData)
    (h1 : (ty == ChangeType.added || ty == ChangeType.modified) = true)
    (h2 : skipsChange r rf d = true) :
    processChange r rf ac ⟨ty, i, d⟩ = (ac, []) := by
  cases ty <;> simp_all [processChange]

lemma processChange_addmod_live_new (r : Role) (rf : Option (List Str))
    (ac : List Str) (ty : ChangeType) (i : Str) (d : AnnouncementData)
    (h1 : (ty == ChangeType.added || ty == ChangeType.modified) = true)
    (hsk : skipsChange r rf d = false) (hlv : d.isLive = true)
    (hmem : d.channelName ∉ ac) :
    processChange r rf ac ⟨ty, i, d⟩ =
      (d.channelName :: ac, [.onNewAnnouncement d]) := by
  cases ty <;> simp_all [processChange]

lemma processChange_addmod_live_tracked (r : Role) (rf : Option (List Str))
    (ac : List Str) (ty : ChangeType) (i : Str) (d : AnnouncementData)
    (h1 : (ty == ChangeType.added || ty == ChangeType.modified) = true)
    (hsk : skipsChange r rf d = false) (hlv : d.isLive = true)
    (hmem : d.channelName ∈ ac) :
    processChange r rf ac ⟨ty, i, d⟩ = (ac, []) := by
  cases ty <;> simp_all [processChange]

lemma processChange_added_dead (r : Role) (rf : Option (List Str))
    (ac : List Str) (i : Str) (d : AnnouncementData)
    (hsk : skipsChange r rf d = false) (hlv : d.isLive = false) :
    processChange r rf ac ⟨.added, i, d⟩ = (ac, []) := by
  simp_all [processChange]

lemma processChange_modified_dead_untracked (r : Role) (rf : Option (List Str))
    (ac : List Str) (i : Str) (d : AnnouncementData)
    (hsk : skipsChange r rf d = false) (hlv : d.isLive = false)
    (hmem : d.channelName ∉ ac) :
    processChange r rf ac ⟨.modified, i, d⟩ = (ac, []) := by
  simp_all [processChange]

lemma processChange_removed_tracked (r : Role) (rf : Option (List Str))
    (ac : List Str) (i : Str) (d : AnnouncementData)
    (hmem : d.channelName ∈ ac) :
    processChange r rf ac ⟨.removed, i, d⟩ =
      (ac.filter (fun c => c != d.channelName),
       [.onAnnouncementEnded i d.channelName]) := by
  simp_all [processChange]

lemma processChange_removed_untracked (r : Role) (rf : Option (List Str))
    (ac : List Str) (i : Str) (d : AnnouncementData)
    (hmem : d.channelName ∉ ac) :
    processChange r rf ac ⟨.removed, i, d⟩ = (ac, []) := by
  simp_all [processChange]

lemma processChange_added_new (r : Role) (rf : Option (List Str))
    (ac : List Str) (i : Str) (d : AnnouncementData)
    (h1 : skipsChange r rf d = false) (h2 : d.isLive = true)
    (h3 : ac.contains d.channelName = false) :
    processChange r rf ac ⟨.added, i, d⟩ =
      (d.channelName :: ac, [.onNewAnnouncement d]) := by
  have h3' : d.channelName ∉ ac := by simpa using h3
  simp [processChange, h1, h2, h3']

lemma processChange_added_tracked (r : Role) (rf : Option (List Str))
    (ac : List Str) (i : Str) (d : AnnouncementData)
    (h1 : skipsChange r rf d = false)
    (h3 : ac.contains d.channelName = true) :
    processChange r rf ac ⟨.added, i, d⟩ = (ac, []) := by
  have h3' : d.channelName ∈ ac := by simpa using h3
  simp [processChange, h1, h3']

lemma processChange_modified_dead_tracked (r : Role) (rf : Option (List Str))
    (ac : List Str) (i : Str) (d : AnnouncementData)
    (h1 : skipsChange r rf d = false) (h2 : d.isLive = false)
    (h3 : ac.contains d.channelName = true) :
    processChange r rf ac ⟨.modified, i, d⟩ =
      (ac.filter (fun c => c != d.channelName),
       [.onAnnouncementEnded i d.channelName]) := by
  have h3' : d.channelName ∈ ac := by simpa using h3
  simp [processChange, h1, h2, h3']

/-- C1: multiplexer de-duplication.  With the authorization filter passing:
the same `added, isLive=true` change twice fires `onNewAnnouncement` once; a
following `modified, isLive=false` — or, alternatively, a `removed` change —
on that channel fires `onAnnouncementEnded` once and re-arms the channel, so a
final re-added live change fires `onNewAnnouncement` again; and any change
that leaves the tracked set unchanged fires no callback at all. -/
theorem multiplexer_dedup (r : Role) (rf : Option (List Str)) (st : List Str)
    (i i2 : Str) (d d2 : AnnouncementData)
    (hskip : skipsChange r rf d = false) (hlive : d.isLive = true)
    (hnew : st.contains d.channelName = false) :
    ((processChanges r rf st [⟨.added, i, d⟩, ⟨.added, i, d⟩]).2 =
      [.onNewAnnouncement d]) ∧
    (d2.channelName = d.channelName → d2.isLive = false →
      skipsChange r rf d2 = false →
      (processChanges r rf st
          [⟨.added, i, d⟩, ⟨.added, i, d⟩, ⟨.modified, i2, d2⟩, ⟨.added, i, d⟩]).2 =
        [.onNewAnnouncement d, .onAnnouncementEnded i2 d.channelName,
         .onNewAnnouncement d]) ∧
    (d2.channelName = d.channelName →
      (processChanges r rf st
          [⟨.added, i, d⟩, ⟨.added, i, d⟩, ⟨.removed, i2, d2⟩, ⟨.added, i, d⟩]).2 =
        [.onNewAnnouncement d, .onAnnouncementEnded i2 d.channelName,
         .onNewAnnouncement d]) ∧
    (∀ (ac : List Str) (ch : DocChange),
      (processChange r rf ac ch).1 = ac → (processChange r rf ac ch).2 = []) := by
  have hcons : ((d.channelName :: st).contains d.channelName) = true := by
    simp
  have hfilter : (d.channelName :: st).filter (fun c => c != d.channelName) = st := by
    have h0 : (d.channelName :: st).filter (fun c => c != d.channelName) =
        st.filter (fun c => c != d.channelName) := by
      simp
    rw [h0, filter_ne_of_not_mem st d.channelName hnew]
  refine ⟨?_, ?_, ?_, ?_⟩
  · unfold processChanges
    simp only [List.foldl]
    rw [processChange_added_new r rf st i d hskip hlive hnew]
    rw [processChange_added_tracked r rf _ i d hskip hcons]
    simp
  · intro hch hdead hskip2
    unfold processChanges
    simp only [List.foldl]
    rw [processChange_added_new r rf st i d hskip hlive hnew]
    rw [processChange_added_tracked r rf _ i d hskip hcons]
    rw [processChange_modified_dead_tracked r rf _ i2 d2 hskip2 hdead
      (by rw [hch]; exact hcons)]
    rw [hch]
    rw [hfilter]
    rw [processChange_added_new r rf st i d hskip hlive hnew]
    simp
  · intro hch
    unfold processChanges
    simp only [List.foldl]
    rw [processChange_added_new r rf st i d hskip hlive hnew]
    rw [processChange_added_tracked r rf _ i d hskip hcons]
    rw [processChange_removed_tracked r rf _ i2 d2
      (by rw [hch]; exact List.mem_cons_self _ _)]
    rw [hch]
    rw [hfilter]
    rw [processChange_added_new r rf st i d hskip hlive hnew]
    simp
  · intro ac ch hfix
    rcases ch with ⟨ty, ci, cd⟩
    by_cases hsk : skipsChange r rf cd = true <;>
      by_cases hlv : cd.isLive = true <;>
      by_cases hc : cd.channelName ∈ ac <;>
      cases ty <;>
      simp_all [processChange] <;>
      exact absurd rfl (hfix _ hc)

/-- Witness for C1 at a concrete subscription and channel. -/
theorem multiplexer_dedup_witness :
    (processChanges .receiver (some ["a".data]) []
        [⟨.added, "d1".data,
          ⟨"s1".data, "a".data, "myazan_x".data, "t".data, some 0, true, none⟩⟩,
         ⟨.added, "d1".data,
          ⟨"s1".data, "a".data, "myazan_x".data, "t".data, some 0, true, none⟩⟩]).2 =
      [.onNewAnnouncement
        ⟨"s1".data, "a".data, "myazan_x".data, "t".data, some 0, true, none⟩] :=
  (multiplexer_dedup .receiver (some ["a".data]) [] "d1".data "d2".data
    ⟨"s1".data, "a".data, "myazan_x".data, "t".data, some 0, true, none⟩
    ⟨"s1".data, "a".data, "myazan_x".data, "t".data, some 0, false, none⟩
    (by decide) (by decide) (by decide)).1

/-- C6 counterexample: with channel spoofing the client-side authorization
filter leaks.  A receiver authorized only for sender `"A"` first tracks
`"A"`'s live channel; a `removed` change for a document of sender `"B"`
carrying the same `channelName` bypasses the filter (which only guards
`added`/`modified` changes) and fires `onAnnouncementEnded` for `"B"`'s
document. -/
theorem receiver_filter_removed_leak :
    (processChanges .receiver (some ["A".data]) []
        [⟨.added, "dA".data,
          ⟨"sA".data, "A".data, "myazan_A".data, "t".data, some 0, true, none⟩⟩,
         ⟨.removed, "dB".data,
          ⟨"sB".data, "B".data, "myazan_A".data, "t".data, some 0, true, none⟩⟩]).2 =
      [.onNewAnnouncement
        ⟨"sA".data, "A".data, "myazan_A".data, "t".data, some 0, true, none⟩,
       .onAnnouncementEnded "dB".data "myazan_A".data] ∧
    ("B".data ∈ ["A".data] → False) := by
  exact ⟨by decide, by decide⟩

/-- Tracked-set invariant: every tracked channel is the derived channel name
of some authorized sender. -/
def TrackedAuthorized (ids : List Str) (ac : List Str) : Prop :=
  ∀ c ∈ ac, ∃ s, ids.contains s = true ∧ c = generateChannelName s

/-- A callback invocation concerns an authorized sender: a new-announcement
callback carries an authorized `senderId`; an ended callback carries the
derived channel name of an authorized sender. -/
def EventAuthorized (ids : List Str) : CallbackEvent → Prop
  | .onNewAnnouncement d => ids.contains d.senderId = true
  | .onAnnouncementEnded _ chn => ∃ s, ids.contains s = true ∧ chn = generateChannelName s

lemma trackedAuthorized_filter (ids ac : List Str) (f : Str → Bool)
    (h : TrackedAuthorized ids ac) : TrackedAuthorized ids (ac.filter f) :=
  fun c hc => h c (List.mem_of_mem_filter hc)

/-- One step of the handler preserves the tracked-set invariant and fires only
authorized callbacks, provided the document's channel name is derived from its
sender. -/
lemma processChange_auth_step (ids : List Str) (ac : List Str) (ch : DocChange)
    (hint : ch.data.channelName = generateChannelName ch.data.senderId)
    (hinv : TrackedAuthorized ids ac) :
    TrackedAuthorized ids (processChange .receiver (some ids) ac ch).1 ∧
    ∀ ev ∈ (processChange .receiver (some ids) ac ch).2, EventAuthorized ids ev := by
  rcases ch with ⟨ty, ci, cd⟩
  simp only at hint
  have hcons : ids.contains cd.senderId = true →
      TrackedAuthorized ids (cd.channelName :: ac) := by
    intro h c hc
    rcases List.mem_cons.mp hc with hh | ht
    · exact ⟨cd.senderId, h, hh.trans hint⟩
    · exact hinv c ht
  have hended : cd.channelName ∈ ac →
      EventAuthorized ids (.onAnnouncementEnded ci cd.channelName) := by
    intro hc
    rcases hinv cd.channelName hc with ⟨s, hs, hcs⟩
    exact ⟨s, hs, hcs⟩
  have hfilterinv :
      TrackedAuthorized ids (ac.filter (fun c => c != cd.channelName)) :=
    trackedAuthorized_filter ids ac _ hinv
  cases ty with
  | removed =>
    by_cases hc : cd.channelName ∈ ac
    · rw [processChange_removed_tracked _ _ _ _ _ hc]
      refine ⟨hfilterinv, ?_⟩
      intro ev hev
      rcases List.mem_singleton.mp hev with rfl
      exact hended hc
    · rw [processChange_removed_untracked _ _ _ _ _ hc]
      exact ⟨hinv, by intro ev hev; cases hev⟩
  | added =>
    by_cases hautho : ids.contains cd.senderId = true
    · have hmem2 : cd.senderId ∈ ids := by simpa using hautho
      have hsk : skipsChange .receiver (some ids) cd = false := by
        simp [skipsChange, hmem2]
      by_cases hlv : cd.isLive = true
      · by_cases hc : cd.channelName ∈ ac
        · rw [processChange_addmod_live_tracked .receiver (some ids) ac _ ci cd (by decide) hsk hlv hc]
          exact ⟨hinv, by intro ev hev; cases hev⟩
        · rw [processChange_addmod_live_new .receiver (some ids) ac _ ci cd (by decide) hsk hlv hc]
          refine ⟨hcons hautho, ?_⟩
          intro ev hev
          rcases List.mem_singleton.mp hev with rfl
          exact hautho
      · have hlv2 : cd.isLive = false := by simpa using hlv
        rw [processChange_added_dead _ _ _ _ _ hsk hlv2]
        exact ⟨hinv, by intro ev hev; cases hev⟩
    · have hsk : skipsChange .receiver (some ids) cd = true := by
        simp only [skipsChange]
        simp
        simpa using hautho
      rw [processChange_skip .receiver (some ids) ac _ ci cd (by decide) hsk]
      exact ⟨hinv, by intro ev hev; cases hev⟩
  | modified =>
    by_cases hautho : ids.contains cd.senderId = true
    · have hmem2 : cd.senderId ∈ ids := by simpa using hautho
      have hsk : skipsChange .receiver (some ids) cd = false := by
        simp [skipsChange, hmem2]
      by_cases hlv : cd.isLive = true
      · by_cases hc : cd.channelName ∈ ac
        · rw [processChange_addmod_live_tracked .receiver (some ids) ac _ ci cd (by decide) hsk hlv hc]
          exact ⟨hinv, by intro ev hev; cases hev⟩
        · rw [processChange_addmod_live_new .receiver (some ids) ac _ ci cd (by decide) hsk hlv hc]
          refine ⟨hcons hautho, ?_⟩
          intro ev hev
          rcases List.mem_singleton.mp hev with rfl
          exact hautho
      · have hlv2 : cd.isLive = false := by simpa using hlv
        by_cases hc : cd.channelName ∈ ac
        · have hct : ac.contains cd.channelName = true := by simpa using hc
          rw [processChange_modified_dead_tracked _ _ _ _ _ hsk hlv2 hct]
          refine ⟨hfilterinv, ?_⟩
          intro ev hev
          rcases List.mem_singleton.mp hev with rfl
          exact hended hc
        · rw [processChange_modified_dead_untracked _ _ _ _ _ hsk hlv2 hc]
          exact ⟨hinv, by intro ev hev; cases hev⟩
    · have hsk : skipsChange .receiver (some ids) cd = true := by
        simp only [skipsChange]
        simp
        simpa using hautho
      rw [processChange_skip .receiver (some ids) ac _ ci cd (by decide) hsk]
      exact ⟨hinv, by intro ev hev; cases hev⟩

lemma processChanges_events_acc (r : Role) (rf : Option (List Str))
    (chs : List DocChange) :
    ∀ (ac : List Str) (evs : List CallbackEvent),
      chs.foldl
        (fun acc change =>
          let rr := processChange r rf acc.1 change
          (rr.1, acc.2 ++ rr.2))
        (ac, evs) =
      ((processChanges r rf ac chs).1, evs ++ (processChanges r rf ac chs).2) := by
  induction chs with
  | nil => intro ac evs; simp [processChanges]
  | cons ch rest ih =>
    intro ac evs
    unfold processChanges
    simp only [List.foldl]
    rw [ih, ih]
    simp

/-- Unrolling `processChanges` one change at a time. -/
lemma processChanges_cons (r : Role) (rf : Option (List Str))
    (ac : List Str) (ch : DocChange) (chs : List DocChange) :
    processChanges r rf ac (ch :: chs) =
      ((processChanges r rf (processChange r rf ac ch).1 chs).1,
       (processChange r rf ac ch).2 ++
         (processChanges r rf (processChange r rf ac ch).1 chs).2) := by
  unfold processChanges
  simp only [List.foldl]
  rw [processChanges_events_acc]
  simp only [List.nil_append]
  rfl

lemma processChanges_auth (ids : List Str) (chs : List DocChange) :
    ∀ ac : List Str,
      (∀ ch ∈ chs, ch.data.channelName = generateChannelName ch.data.senderId) →
      TrackedAuthorized ids ac →
      TrackedAuthorized ids (processChanges .receiver (some ids) ac chs).1 ∧
      ∀ ev ∈ (processChanges .receiver (some ids) ac chs).2, EventAuthorized ids ev := by
  induction chs with
  | nil =>
    intro ac _ hinv
    exact ⟨hinv, by simp [processChanges]⟩
  | cons ch rest ih =>
    intro ac hint hinv
    have hstep := processChange_auth_step ids ac ch (hint ch (by simp)) hinv
    have hrest := ih (processChange .receiver (some ids) ac ch).1
      (fun c hc => hint c (by simp [hc])) hstep.1
    rw [processChanges_cons]
    refine ⟨hrest.1, ?_⟩
    intro ev hev
    rcases List.mem_append.mp hev with h1 | h2
    · exact hstep.2 ev h1
    · exact hrest.2 ev h2

/-- C6 amended: provided every delivered document's `channelName` is the
derived channel name of its `senderId` (the system's naming convention, which
the counterexample shows is needed against spoofed `removed` changes), a
receiver subscribed with an authorized-sender list never gets a callback for a
document of an unauthorized sender: every `onNewAnnouncement` carries an
authorized `senderId`, every `onAnnouncementEnded` carries an authorized
sender's channel, and no callback at all concerns an unauthorized change. -/
theorem receiver_filter_authorized_only (ids : List Str) (chs : List DocChange)
    (hint : ∀ ch ∈ chs, ch.data.channelName = generateChannelName ch.data.senderId) :
    (∀ d, CallbackEvent.onNewAnnouncement d ∈
        (processChanges .receiver (some ids) [] chs).2 →
      ids.contains d.senderId = true) ∧
    (∀ i chn, CallbackEvent.onAnnouncementEnded i chn ∈
        (processChanges .receiver (some ids) [] chs).2 →
      ∃ s, ids.contains s = true ∧ chn = generateChannelName s) ∧
    (∀ ch ∈ chs, ids.contains ch.data.senderId = false →
      (∀ d, CallbackEvent.onNewAnnouncement d ∈
          (processChanges .receiver (some ids) [] chs).2 →
        d.senderId ≠ ch.data.senderId) ∧
      (∀ i, CallbackEvent.onAnnouncementEnded i ch.data.channelName ∉
          (processChanges .receiver (some ids) [] chs).2)) := by
  have hmain := processChanges_auth ids chs [] hint (by intro c hc; cases hc)
  refine ⟨fun d hd => hmain.2 _ hd, fun i chn hch => hmain.2 _ hch, ?_⟩
  intro ch hch hunauth
  constructor
  · intro d hd heq
    have := hmain.2 _ hd
    simp only [EventAuthorized] at this
    rw [heq] at this
    rw [this] at hunauth
    cases hunauth
  · intro i hmem
    rcases hmain.2 _ hmem with ⟨s, hs, hcs⟩
    have hss : ch.data.senderId = s := by
      have h1 : generateChannelName ch.data.senderId = generateChannelName s :=
        (hint ch hch) ▸ hcs
      exact List.append_cancel_left h1
    rw [hss, hs] at hunauth
    cases hunauth

/-- Witness for the amended C6 at a concrete honest change sequence. -/
theorem receiver_filter_authorized_only_witness :
    List.contains ["A".data] ("A".data : Str) = true :=
  by
    have h := receiver_filter_authorized_only ["A".data]
      [⟨.added, "dA".data,
        ⟨"sA".data, "A".data, "myazan_A".data, "t".data, some 0, true, none⟩⟩]
      (by decide)
    have hmem := h.1
      ⟨"sA".data, "A".data, "myazan_A".data, "t".data, some 0, true, none⟩
      (by decide)
    exact hmem

/-- Witness for C9: an arbitrarily old live session with no `startedAt` stays
live through the sweep. -/
theorem cleanupStaleSessions_skips_missing_startedAt_witness :
    reclaimDoc 999999999
      ⟨"s1".data, "a".data, "myazan_a".data, "t".data, none, true, none⟩ =
      ⟨"s1".data, "a".data, "myazan_a".data, "t".data, none, true, none⟩ ∧
    (cleanupStaleSessions
        [⟨"s1".data, "a".data, "myazan_a".data, "t".data, none, true, none⟩]
        999999999).1.get? 0 =
      some ⟨"s1".data, "a".data, "myazan_a".data, "t".data, none, true, none⟩ :=
  ⟨(cleanupStaleSessions_skips_missing_startedAt
      [⟨"s1".data, "a".data, "myazan_a".data, "t".data, none, true, none⟩]
      999999999 0 _ rfl rfl).1,
   (cleanupStaleSessions_skips_missing_startedAt
      [⟨"s1".data, "a".data, "myazan_a".data, "t".data, none, true, none⟩]
      999999999 0 _ rfl rfl).2.1⟩


lemma skipsChange_none (r : Role) (d : AnnouncementData) :
    skipsChange r none d = false := by
  simp [skipsChange]

/-- C10: a receiver subscription with `receivesFromSenderIds` omitted applies
no sender filter at all: the handler behaves exactly as for a sender
subscription, and callbacks fire for documents of every sender (fail-open, not
fail-closed). -/
theorem receiver_without_list_fail_open
    (st : List Str) (ch : DocChange) (i : Str) (d : AnnouncementData) :
    processChange .receiver none st ch = processChange .sender none st ch ∧
    (d.isLive = true → st.contains d.channelName = false →
      (processChange .receiver none st ⟨.added, i, d⟩).2 = [.onNewAnnouncement d]) ∧
    (d.isLive = false → st.contains d.channelName = true →
      (processChange .receiver none st ⟨.modified, i, d⟩).2 =
        [.onAnnouncementEnded i d.channelName]) := by
  refine ⟨?_, ?_, ?_⟩
  · unfold processChange
    simp only [skipsChange_none]
  · intro hlv hc
    rw [processChange_added_new .receiver none st i d (skipsChange_none _ _) hlv hc]
  · intro hlv hc
    rw [processChange_modified_dead_tracked .receiver none st i d
      (skipsChange_none _ _) hlv hc]

/-- Witness for C10: with no authorized-sender list, an added live document
from an arbitrary sender fires `onNewAnnouncement` for a receiver. -/
theorem receiver_without_list_fail_open_witness :
    (processChange .receiver none [] ⟨.added, "dB".data,
        ⟨"sB".data, "B".data, "myazan_B".data, "t".data, some 0, true, none⟩⟩).2 =
      [.onNewAnnouncement
        ⟨"sB".data, "B".data, "myazan_B".data, "t".data, some 0, true, none⟩] :=
  (receiver_without_list_fail_open [] ⟨.added, "dB".data,
      ⟨"sB".data, "B".data, "myazan_B".data, "t".data, some 0, true, none⟩⟩
    "dB".data
    ⟨"sB".data, "B".data, "myazan_B".data, "t".data, some 0, true, none⟩).2.1
    rfl rfl

/-! ## TokenRefreshManager (src/services/tokenRefresh.ts)

The Agora engine is modelled by the multiset of handler identities registered
for the `TokenPrivilegeWillExpire` event.  Each evaluation of
`this.onTokenWillExpire.bind(this)` yields a fresh function identity, modelled
by the `nextBindId` counter: `addListener` registers the fresh identity and
`removeListener` erases its (fresh, hence unregistered) argument.  The
`generateAgoraToken` backend call is an explicit `Except` outcome; `renewToken`
calls are recorded as the list of credentials installed. -/

structure EngineState where
  listeners : List Nat
deriving DecidableEq

inductive AgoraRole
  | publisher
  | audience
deriving DecidableEq

structure TokenRefreshState where
  engine : EngineState
  engineAttached : Bool
  channelName : Str
  uid : Nat
  role : AgoraRole
  nextBindId : Nat
deriving DecidableEq

/-- `initialize(engine, channelName, uid, role)`: stores the fields and, the
engine reference being set, registers a freshly bound expiry listener. -/
def trmInit (w : TokenRefreshState) (channelName : Str) (uid : Nat)
    (role : AgoraRole) : TokenRefreshState :=
  { w with
    engineAttached := true
    channelName := channelName
    uid := uid
    role := role
    engine := ⟨w.engine.listeners ++ [w.nextBindId]⟩
    nextBindId := w.nextBindId + 1 }

/-- `cleanup()`: if `this.engine` is set, calls `removeListener` with a fresh
`bind` result, then nulls the engine reference and resets the fields. -/
def trmCleanup (w : TokenRefreshState) : TokenRefreshState :=
  if w.engineAttached then
    { w with
      engine := ⟨w.engine.listeners.erase w.nextBindId⟩
      nextBindId := w.nextBindId + 1
      engineAttached := false
      channelName := []
      uid := 0
      role := .audience }
  else
    { w with
      engineAttached := false
      channelName := []
      uid := 0
      role := .audience }

/-- `onTokenWillExpire()`: one `generateAgoraToken` request; on success, if
the engine reference and the token are truthy, one `renewToken(token)` call;
every failure is caught and swallowed.  Returns (fetch-call count, renewed
credentials, state afterwards). -/
def onTokenWillExpire (w : TokenRefreshState) (fetchResult : Except Unit Str) :
    Nat × List Str × TokenRefreshState :=
  match fetchResult with
  | .error _ => (1, [], w)
  | .ok token =>
    if w.engineAttached && !token.isEmpty then (1, [token], w) else (1, [], w)

/-- C7: one expiry event makes exactly one credential fetch and, after
`initialize`, exactly one renew call installing the fetched credential; any
failure leaves the state untouched with no retry; `cleanup` twice equals
`cleanup` once, `cleanup` without a prior `initialize` deregisters nothing,
and `cleanup` removes at most one listener registration. -/
theorem tokenRefresh_single_attempt_and_safe_cleanup
    (w : TokenRefreshState) (cn : Str) (u : Nat) (ro : AgoraRole)
    (tok : Str) (fr : Except Unit Str) (htok : tok ≠ []) :
    (onTokenWillExpire w fr).1 = 1 ∧
    (onTokenWillExpire (trmInit w cn u ro) (.ok tok)).2.1 = [tok] ∧
    (onTokenWillExpire w fr).2.2 = w ∧
    trmCleanup (trmCleanup w) = trmCleanup w ∧
    (w.engineAttached = false → (trmCleanup w).engine = w.engine) ∧
    w.engine.listeners.length ≤ (trmCleanup w).engine.listeners.length + 1 := by
  have hne : tok.isEmpty = false := by
    cases tok with
    | nil => exact absurd rfl htok
    | cons a l => rfl
  refine ⟨?_, ?_, ?_, ?_, ?_, ?_⟩
  · rcases fr with e | t
    · rfl
    · simp only [onTokenWillExpire]
      split <;> rfl
  · simp [onTokenWillExpire, trmInit, hne]
  · rcases fr with e | t
    · rfl
    · simp only [onTokenWillExpire]
      split <;> rfl
  · rcases w with ⟨e, att, cn2, u2, ro2, b⟩
    cases att <;> simp [trmCleanup]
  · intro h
    simp [trmCleanup, h]
  · rcases w with ⟨⟨ls⟩, att, cn2, u2, ro2, b⟩
    cases att <;> simp [trmCleanup]
    rw [List.length_erase]
    split <;> omega

/-- Witness for C7 at a concrete engine state and token. -/
theorem tokenRefresh_single_attempt_and_safe_cleanup_witness :
    (onTokenWillExpire
        (trmInit ⟨⟨[]⟩, false, [], 0, .audience, 0⟩ "c".data 1 .publisher)
        (.ok "t".data)).2.1 = ["t".data] :=
  (tokenRefresh_single_attempt_and_safe_cleanup
    ⟨⟨[]⟩, false, [], 0, .audience, 0⟩ "c".data 1 .publisher
    "t".data (.ok "t".data) (by decide)).2.1

end MyAzan
